import Mathlib

/-!
Verification of the natural-language specification of `header.js`
(repository ExtinctionY), a browser glue script that injects a shared
navigation header, highlights the active nav link, and provides a
debounced substring search over a cached Pokémon name index.

The script is shallowly embedded: its functions become pure Lean
functions, browser state (the `window._searchPokedex` cache, the DOM
results box, the debounce timer) becomes explicit state passing, and
the two network fetches become explicit outcome parameters.  JavaScript
strings are modelled through `String.data : List Char` so that every
definition evaluates by kernel reduction.
-/

/-! ## JSON values and JavaScript truthiness

`data/pokedex.json` parses to an arbitrary JSON value.  Numbers are
modelled as integers (the component never reads them; only JavaScript
truthiness of the whole value matters, and `NaN` cannot appear in JSON
output).
-/

inductive Json where
  | null
  | bool (b : Bool)
  | num (n : Int)
  | str (s : String)
  | arr (elems : List Json)
  | obj (entries : List (String × Json))

/-- JavaScript truthiness of a parsed JSON value: `null`, `false`, `0`
and `""` are falsy; every object and array (including `{}` and `[]`)
is truthy. -/
def truthy : Json → Bool
  | .null => false
  | .bool b => b
  | .num n => n != 0
  | .str s => s != ""
  | .arr _ => true
  | .obj _ => true

/-- `Object.keys` (line 62 reads `Object.keys(pokedex || {})`): own
enumerable keys of an object, in insertion order (the integer-like-key
reordering of JavaScript never applies to Pokémon display names and is
not modelled); index keys for arrays and strings; `[]` otherwise. -/
def jsObjectKeys : Json → List String
  | .obj entries => entries.map (fun kv => kv.1)
  | .arr elems => (List.range elems.length).map (fun i => toString i)
  | .str s => (List.range s.data.length).map (fun i => toString i)
  | _ => []

/-! ## The name-index loader (`loadSearchPokedex`, lines 12-24)

```
async function loadSearchPokedex() {
  if (window._searchPokedex) return window._searchPokedex;
  try {
    const res = await fetch("data/pokedex.json");
    if (!res.ok) throw new Error("pokedex.json fetch failed");
    window._searchPokedex = await res.json();
    return window._searchPokedex;
  } catch (e) {
    console.warn("Header search: could not load pokedex.json:", e);
    window._searchPokedex = {};
    return window._searchPokedex;
  }
}
```

A call is modelled as a state transformer on the cache
`window._searchPokedex` (a `Json` value, initially `null`), parameterised
by what the network would do if a fetch were issued on this call.
-/

/-- Outcome of one would-be network round trip for `data/pokedex.json`. -/
inductive FetchOutcome where
  | fetchThrows                 -- `fetch` itself rejects (network error)
  | notOk                       -- response arrives with `res.ok` false
  | jsonThrows                  -- `res.json()` rejects (JSON parse error)
  | success (v : Json)          -- `res.ok` and the body parses to `v`

/-- The body of the `try` block, lines 15-18: the fetch plus the
`!res.ok` throw plus the JSON parse.  An `Except.error` is a thrown
exception reaching the `catch`. -/
def fetchPokedexJson : FetchOutcome → Except String Json
  | .fetchThrows => .error "TypeError: failed to fetch"
  | .notOk => .error "pokedex.json fetch failed"
  | .jsonThrows => .error "SyntaxError: JSON parse error"
  | .success v => .ok v

/-- Observable result of one `loadSearchPokedex()` call. -/
structure LoadResult where
  result : Json        -- the value the returned promise resolves to
  cache : Json         -- `window._searchPokedex` after the call
  didFetch : Bool      -- whether this call issued a network fetch

/-- One sequential call to `loadSearchPokedex` (lines 12-24), given the
current cache and the outcome the network would produce.  The result is
`Except.ok` when the returned promise resolves and `Except.error` when
it would reject; the `try`/`catch` turns every throw of lines 15-17
into the warn-and-fallback of lines 19-23. -/
def loadSearchPokedex (cache : Json) (outcome : FetchOutcome) :
    Except String LoadResult :=
  if truthy cache then .ok ⟨cache, cache, false⟩          -- line 13
  else
    match fetchPokedexJson outcome with
    | .ok v => .ok ⟨v, v, true⟩                           -- lines 17-18
    | .error _e => .ok ⟨Json.obj [], Json.obj [], true⟩   -- lines 19-23

/-- A sequence of sequential `loadSearchPokedex()` calls within one page
session, threading the cache; the `i`-th call sees the `i`-th network
outcome if it fetches.  (The loader never rejects — claim C4 — so the
`.error` branch is unreachable.) -/
def runLoads (cache : Json) : List FetchOutcome → List LoadResult
  | [] => []
  | o :: os =>
    match loadSearchPokedex cache o with
    | .ok r => r :: runLoads r.cache os
    | .error _ => []

lemma runLoads_cached (m : Json) (h : truthy m = true) :
    ∀ os : List FetchOutcome,
      runLoads m os = os.map (fun _ => LoadResult.mk m m false) := by
  intro os
  induction os with
  | nil => rfl
  | cons o os ih =>
      simp only [runLoads, loadSearchPokedex, h, if_pos, List.map_cons]
      exact congrArg _ ih

/-- Claim C4: the loader never propagates a failure: every call
resolves (never rejects), and a call that actually fetches and fails in
any of the three ways — the fetch throwing, a non-success response, or
a JSON parse error — resolves to the empty mapping `{}`. -/
theorem loadSearchPokedex_never_fails :
    (∀ (cache : Json) (o : FetchOutcome),
        (loadSearchPokedex cache o).isOk = true) ∧
    (∀ o : FetchOutcome, (fetchPokedexJson o).isOk = false →
        loadSearchPokedex Json.null o =
          .ok ⟨Json.obj [], Json.obj [], true⟩) := by
  constructor
  · intro cache o
    unfold loadSearchPokedex
    by_cases h : truthy cache = true
    · rw [if_pos h]; rfl
    · rw [if_neg h]
      cases hf : fetchPokedexJson o <;> rfl
  · intro o h
    unfold loadSearchPokedex
    cases hf : fetchPokedexJson o with
    | ok v => rw [hf] at h; exact Bool.noConfusion h
    | error e => rfl

theorem loadSearchPokedex_never_fails_witness :
    (fetchPokedexJson FetchOutcome.notOk).isOk = false ∧
    loadSearchPokedex Json.null FetchOutcome.notOk =
      .ok ⟨Json.obj [], Json.obj [], true⟩ :=
  ⟨rfl, loadSearchPokedex_never_fails.2 FetchOutcome.notOk rfl⟩

/-- Claim C7: at-most-once fetch for sequential calls.  If the first
call's outcome is a failure (handled by the `{}` fallback) or a body
parsing to a JSON object — the shape §6 of the spec guarantees for the
data resource — then the first call fetches, and every subsequent call
of the session returns the identical cached mapping without fetching,
whatever its network outcome would have been (in particular a failed
fetch is final: no retry ever happens). -/
theorem loadSearchPokedex_at_most_once (o : FetchOutcome)
    (os : List FetchOutcome)
    (h : (fetchPokedexJson o).isOk = false ∨
         ∃ kvs, o = FetchOutcome.success (Json.obj kvs)) :
    ∃ m : Json, truthy m = true ∧
      runLoads Json.null (o :: os) =
        LoadResult.mk m m true :: os.map (fun _ => LoadResult.mk m m false) := by
  have hfirst : ∀ m : Json, fetchPokedexJson o = .ok m ∨
      (fetchPokedexJson o).isOk = false ∧ m = Json.obj [] →
      runLoads Json.null (o :: os) =
        LoadResult.mk m m true :: runLoads m os := by
    intro m hm
    cases hm with
    | inl hok => simp only [runLoads, loadSearchPokedex, hok]; rfl
    | inr herr =>
        obtain ⟨hfail, rfl⟩ := herr
        cases hf : fetchPokedexJson o with
        | ok v => rw [hf] at hfail; exact Bool.noConfusion hfail
        | error e => simp only [runLoads, loadSearchPokedex, hf]; rfl
  cases h with
  | inl hfail =>
      refine ⟨Json.obj [], rfl, ?_⟩
      rw [hfirst (Json.obj []) (Or.inr ⟨hfail, rfl⟩),
        runLoads_cached (Json.obj []) rfl]
  | inr hobj =>
      obtain ⟨kvs, rfl⟩ := hobj
      refine ⟨Json.obj kvs, rfl, ?_⟩
      rw [hfirst (Json.obj kvs) (Or.inl rfl), runLoads_cached (Json.obj kvs) rfl]

theorem loadSearchPokedex_at_most_once_witness :
    ((fetchPokedexJson FetchOutcome.notOk).isOk = false ∨
      ∃ kvs, FetchOutcome.notOk = FetchOutcome.success (Json.obj kvs)) ∧
    ∃ m : Json, truthy m = true ∧
      runLoads Json.null
          [FetchOutcome.notOk, FetchOutcome.success (Json.obj []),
            FetchOutcome.fetchThrows] =
        LoadResult.mk m m true ::
          [FetchOutcome.success (Json.obj []),
            FetchOutcome.fetchThrows].map (fun _ => LoadResult.mk m m false) :=
  ⟨Or.inl rfl,
    loadSearchPokedex_at_most_once FetchOutcome.notOk
      [FetchOutcome.success (Json.obj []), FetchOutcome.fetchThrows]
      (Or.inl rfl)⟩

/-- Claim C10: the cache-hit test of line 13 is a truthiness test, so a
body that parses to a falsy JSON value (for example JSON `null`) is
returned as-is — the `catch` fallback does not run — is cached as a
falsy value the check never sees as loaded, and every subsequent call
fetches afresh, whatever its outcome. -/
theorem loadSearchPokedex_falsy_refetch (v : Json) (hv : truthy v = false)
    (o2 : FetchOutcome) :
    loadSearchPokedex Json.null (FetchOutcome.success v) = .ok ⟨v, v, true⟩ ∧
    ∃ r : LoadResult, loadSearchPokedex v o2 = .ok r ∧ r.didFetch = true := by
  constructor
  · rfl
  · unfold loadSearchPokedex
    rw [hv, if_neg Bool.false_ne_true]
    cases hf : fetchPokedexJson o2 with
    | ok w => exact ⟨⟨w, w, true⟩, rfl, rfl⟩
    | error e => exact ⟨⟨Json.obj [], Json.obj [], true⟩, rfl, rfl⟩

theorem loadSearchPokedex_falsy_refetch_witness :
    truthy Json.null = false ∧
    (loadSearchPokedex Json.null (FetchOutcome.success Json.null) =
        .ok ⟨Json.null, Json.null, true⟩ ∧
      ∃ r : LoadResult,
        loadSearchPokedex Json.null FetchOutcome.notOk = .ok r ∧
          r.didFetch = true) :=
  ⟨rfl, loadSearchPokedex_falsy_refetch Json.null rfl FetchOutcome.notOk⟩

/-! ## JavaScript string primitives used by `setActiveHeaderLink`

`String.prototype.split` with a one-character separator and
`String.prototype.startsWith`, modelled over `String.data` so that they
evaluate by kernel reduction.
-/

/-- JS `str.split(sep)` for a single-character separator: `""` splits to
`[""]`, separators at the ends produce empty segments. -/
def splitOnChar (sep : Char) : List Char → List (List Char)
  | [] => [[]]
  | c :: cs =>
    if c = sep then [] :: splitOnChar sep cs
    else
      match splitOnChar sep cs with
      | [] => [[c]]
      | h :: t => (c :: h) :: t

/-- JS `s.startsWith(p)`. -/
def jsStartsWith (s p : String) : Bool :=
  p.data.isPrefixOf s.data

/-- Line 69: `window.location.pathname.split("/").pop() || "index.html"`
— the last path segment, with the falsy `""` replaced by the home file
name. -/
def pageFileName (pathname : String) : String :=
  let last := (splitOnChar '/' pathname.data).getLastD []
  if last = [] then "index.html" else ⟨last⟩

/-- The five navigation links of the header (`link-info`,
`link-pokedex`, `link-moves`, `link-locations`, `link-abilities`). -/
inductive NavLink where
  | info
  | pokedex
  | moves
  | locations
  | abilities
deriving DecidableEq

/-! ## `setActiveHeaderLink` (lines 68-89)

The function first removes the `active` class from all five links and
then adds it to the link selected by the prefix chain below, so exactly
the returned link ends up marked active (when all five elements exist;
missing elements are silently skipped by the code and not modelled). -/

/-- The prefix chain of lines 75-88, applied to the page's file name. -/
def activeLinkForPath (path : String) : NavLink :=
  if jsStartsWith path "info" then .info
  else if jsStartsWith path "index" || path = "" then .pokedex
  else if jsStartsWith path "moves" || jsStartsWith path "movedescriptions" then .moves
  else if jsStartsWith path "locations" || jsStartsWith path "trainer"
      || jsStartsWith path "trainers" || jsStartsWith path "encounters" then .locations
  else if jsStartsWith path "abilities" then .abilities
  else .pokedex

/-- `setActiveHeaderLink` (lines 68-89): the link left active, as a
function of `window.location.pathname`. -/
def setActiveHeaderLink (pathname : String) : NavLink :=
  activeLinkForPath (pageFileName pathname)

/-- Modelled from the claim's words (for comparison with the code): the
prefix rules exactly as claim C2 states them, with the literal prefixes
"move-descriptions" and "trainers". -/
def activeLinkForPathClaimed (path : String) : NavLink :=
  if jsStartsWith path "info" then .info
  else if jsStartsWith path "index" || path = "" then .pokedex
  else if jsStartsWith path "moves" || jsStartsWith path "move-descriptions" then .moves
  else if jsStartsWith path "locations" || jsStartsWith path "trainers"
      || jsStartsWith path "encounters" then .locations
  else if jsStartsWith path "abilities" then .abilities
  else .pokedex

/-- The claim's rules with the two prefixes corrected to what the code
tests: "movedescriptions" (no hyphen, line 79) and the singular
"trainer" (line 81, which also covers every "trainers…" name). -/
def activeLinkForPathAmended (path : String) : NavLink :=
  if jsStartsWith path "info" then .info
  else if jsStartsWith path "index" || path = "" then .pokedex
  else if jsStartsWith path "moves" || jsStartsWith path "movedescriptions" then .moves
  else if jsStartsWith path "locations" || jsStartsWith path "trainer"
      || jsStartsWith path "encounters" then .locations
  else if jsStartsWith path "abilities" then .abilities
  else .pokedex

def setActiveLinkClaimed (pathname : String) : NavLink :=
  activeLinkForPathClaimed (pageFileName pathname)

def setActiveLinkAmended (pathname : String) : NavLink :=
  activeLinkForPathAmended (pageFileName pathname)

/-- Claim C2 fails on the code: the file name "trainer.html" is not
covered by the claim's prefix list, so the claim routes it to the
pokedex fallback, but line 81 tests the singular prefix "trainer" and
activates the locations link; and "move-descriptions.html" matches the
claim's hyphenated prefix (moves link) while the code tests the
unhyphenated "movedescriptions" and falls through to pokedex. -/
theorem setActiveHeaderLink_claim_counterexample :
    setActiveLinkClaimed "/trainer.html" = NavLink.pokedex ∧
    setActiveHeaderLink "/trainer.html" = NavLink.locations ∧
    setActiveLinkClaimed "/move-descriptions.html" = NavLink.moves ∧
    setActiveHeaderLink "/move-descriptions.html" = NavLink.pokedex := by
  refine ⟨?_, ?_, ?_, ?_⟩ <;> decide

lemma jsStartsWith_trainers_trainer (s : String)
    (h : jsStartsWith s "trainers" = true) : jsStartsWith s "trainer" = true := by
  unfold jsStartsWith at h ⊢
  rw [List.isPrefixOf_iff_prefix] at h ⊢
  exact List.IsPrefix.trans (by decide) h

/-- Claim C2 amended: `setActiveHeaderLink` is the deterministic prefix
chain of the claim with "movedescriptions" in place of
"move-descriptions" and the singular "trainer" (subsuming "trainers")
in the locations rule; in particular "moves.html" activates the moves
link and an unrecognized file name activates the pokedex link. -/
theorem setActiveHeaderLink_amended :
    (∀ pathname : String,
        setActiveHeaderLink pathname = setActiveLinkAmended pathname) ∧
    setActiveHeaderLink "/moves.html" = NavLink.moves ∧
    setActiveHeaderLink "/zzz.html" = NavLink.pokedex := by
  refine ⟨?_, by decide, by decide⟩
  intro pathname
  show activeLinkForPath _ = activeLinkForPathAmended _
  generalize pageFileName pathname = path
  unfold activeLinkForPath activeLinkForPathAmended
  have habs : (jsStartsWith path "locations" || jsStartsWith path "trainer"
      || jsStartsWith path "trainers" || jsStartsWith path "encounters") =
      (jsStartsWith path "locations" || jsStartsWith path "trainer"
      || jsStartsWith path "encounters") := by
    cases h1 : jsStartsWith path "trainer"
    · cases h2 : jsStartsWith path "trainers"
      · simp
      · have := jsStartsWith_trainers_trainer path h2
        rw [h1] at this
        exact Bool.noConfusion this
    · simp
  rw [habs]

/-! ## `installHeaderFromFile` handler wiring (lines 91-166)

Which of the three search-related handlers get attached, by scenario.
On the fetched path (lines 118-142) the input and keydown handlers are
attached iff the `search` element exists, and the document-wide
click-away handler is attached unconditionally — but only if the
fragment had a root element (line 107 returns before any wiring
otherwise).  On the fallback path (lines 146-165) only the input
handler is attached (line 163).  If the header was already present
(lines 93-96) nothing is wired. -/

inductive InstallScenario where
  | headerAlreadyPresent
  | fetchOk (fragmentHasRoot : Bool) (searchInputPresent : Bool)
  | fetchFails

structure Wiring where
  inputWired : Bool      -- `qEl.addEventListener("input", searchPokemon)`
  keydownWired : Bool    -- the Enter-key handler (lines 122-132)
  docClickWired : Bool   -- the click-away closer (lines 135-142)
deriving DecidableEq

def installHeaderWiring : InstallScenario → Wiring
  | .headerAlreadyPresent => ⟨false, false, false⟩
  | .fetchOk fragmentHasRoot searchInputPresent =>
      if fragmentHasRoot then ⟨searchInputPresent, searchInputPresent, true⟩
      else ⟨false, false, false⟩
  | .fetchFails => ⟨true, false, false⟩

/-- Claim C3 fails on the code: on the fallback path (header fragment
unavailable) only the input-change handler is wired (line 163); the
Enter-key handler and the document-wide click-away handler are attached
only inside the fetch-success continuation (lines 122-142), which never
runs when the fetch fails. -/
theorem installHeader_fallback_counterexample :
    (installHeaderWiring InstallScenario.fetchFails).inputWired = true ∧
    (installHeaderWiring InstallScenario.fetchFails).keydownWired = false ∧
    (installHeaderWiring InstallScenario.fetchFails).docClickWired = false := by
  refine ⟨rfl, rfl, rfl⟩

/-- Claim C3 amended: after the fetched header fragment is inserted
(fragment has a root element and contains the search input), all three
handlers are wired; after the synthesized fallback header only the
input-change handler is wired. -/
theorem installHeader_wiring_amended :
    installHeaderWiring (InstallScenario.fetchOk true true) = ⟨true, true, true⟩ ∧
    installHeaderWiring InstallScenario.fetchFails = ⟨true, false, false⟩ :=
  ⟨rfl, rfl⟩

/-! ## The debounce of `searchPokemon` (lines 47-66)

```
let _searchDebounceTimer = null;
function searchPokemon() {
  ...
  if (_searchDebounceTimer) clearTimeout(_searchDebounceTimer);
  _searchDebounceTimer = setTimeout(async () => { ...evaluate qEl.value... }, 120);
}
```

Modelled as a state machine on the single-threaded event loop: the
state holds the pending timer (its absolute fire time), the current
text of the input, and the list of input values the scheduled
evaluation has read so far.  A keystroke at time `t` first lets an
already-due timer fire (its callback ran earlier on the event loop),
then replaces the pending timer with one due at `t + 120` and updates
the input text.
-/

structure DebState where
  timer : Option Nat   -- absolute due time of the pending evaluation
  value : String       -- current content of the `search` input
  fired : List String  -- values read by evaluations that have fired
deriving DecidableEq

def debInit : DebState := ⟨none, "", []⟩

/-- Run the pending timer callback if its due time has passed: the
callback reads `qEl.value` (line 56) — the input text current at fire
time. -/
def fireIfDue (s : DebState) (now : Nat) : DebState :=
  match s.timer with
  | some due => if due ≤ now then ⟨none, s.value, s.fired ++ [s.value]⟩ else s
  | none => s

/-- One `input` event at time `t` changing the text to `v`: lines 54-55
cancel the pending evaluation and schedule a new one 120 ms later. -/
def keystroke (s : DebState) (t : Nat) (v : String) : DebState :=
  let s' := fireIfDue s t
  ⟨some (t + 120), v, s'.fired⟩

/-- After the input goes quiet the last pending evaluation fires. -/
def flushTimer (s : DebState) : DebState :=
  match s.timer with
  | some _ => ⟨none, s.value, s.fired ++ [s.value]⟩
  | none => s

/-- A whole typing burst: the keystrokes in order, then quiet. -/
def runKeystrokes (events : List (Nat × String)) : DebState :=
  flushTimer (events.foldl (fun s tv => keystroke s tv.1 tv.2) debInit)

/-- Each keystroke is within the 120 ms debounce window of the
previous one. -/
def gapsOk : Nat × String → List (Nat × String) → Bool
  | _, [] => true
  | a, b :: t => (decide (b.1 < a.1 + 120)) && gapsOk b t

lemma foldl_keystroke_rapid (rest : List (Nat × String)) :
    ∀ (t : Nat) (v : String) (fired : List String),
      gapsOk (t, v) rest = true →
      rest.foldl (fun s tv => keystroke s tv.1 tv.2)
          (DebState.mk (some (t + 120)) v fired) =
        ⟨some ((rest.getLastD (t, v)).1 + 120), (rest.getLastD (t, v)).2, fired⟩ := by
  induction rest with
  | nil => intro t v fired _; rfl
  | cons b bs ih =>
      intro t v fired h
      simp only [gapsOk, Bool.and_eq_true, decide_eq_true_eq] at h
      obtain ⟨hgap, hrest⟩ := h
      have hstep : keystroke ⟨some (t + 120), v, fired⟩ b.1 b.2 =
          ⟨some (b.1 + 120), b.2, fired⟩ := by
        unfold keystroke fireIfDue
        simp only [if_neg (by omega : ¬ t + 120 ≤ b.1)]
      simp only [List.foldl_cons, hstep]
      rw [ih b.1 b.2 fired (by cases b; exact hrest)]
      cases bs with
      | nil => rfl
      | cons c cs => rfl

/-- Claim C6: trailing-edge debounce with a 120 ms quiet period.  Every
call replaces the pending evaluation by one due 120 ms later, and a
burst of keystrokes each falling inside the window of its predecessor
fires exactly one evaluation, which reads the input text produced by
the final keystroke. -/
theorem debounce_single_eval :
    (∀ (s : DebState) (t : Nat) (v : String),
        (keystroke s t v).timer = some (t + 120)) ∧
    (∀ (t : Nat) (v : String) (rest : List (Nat × String)),
        gapsOk (t, v) rest = true →
        runKeystrokes ((t, v) :: rest) =
          ⟨none, (rest.getLastD (t, v)).2, [(rest.getLastD (t, v)).2]⟩) := by
  constructor
  · intro s t v; rfl
  · intro t v rest h
    unfold runKeystrokes
    simp only [List.foldl_cons]
    have h0 : keystroke debInit t v = ⟨some (t + 120), v, []⟩ := rfl
    rw [h0, foldl_keystroke_rapid rest t v [] h]
    rfl

theorem debounce_single_eval_witness :
    gapsOk (0, "c") [(50, "ch"), (100, "cha"), (140, "char")] = true ∧
    runKeystrokes [(0, "c"), (50, "ch"), (100, "cha"), (140, "char")] =
      ⟨none, "char", ["char"]⟩ :=
  ⟨rfl, debounce_single_eval.2 0 "c" [(50, "ch"), (100, "cha"), (140, "char")] rfl⟩

/-! ## JavaScript `trim`, `toLowerCase` and `includes`

`String.prototype.trim` strips the JS WhiteSpace and LineTerminator
code points from both ends.  `String.prototype.toLowerCase` is modelled
on its ASCII fragment (the only part exercised by ASCII file names and
Latin Pokémon names): code points 65-90 map to 97-122, everything else
is unchanged.  `String.prototype.includes` is substring containment. -/

/-- The JS WhiteSpace / LineTerminator set (ECMA-262): TAB LF VT FF CR
SP NBSP, the Unicode space separators, LS, PS, NNBSP, MMSP, ideographic
space and ZWNBSP. -/
def isJsWs (c : Char) : Bool :=
  decide (c.toNat = 9) || decide (c.toNat = 10) || decide (c.toNat = 11) ||
  decide (c.toNat = 12) || decide (c.toNat = 13) || decide (c.toNat = 32) ||
  decide (c.toNat = 160) || decide (c.toNat = 5760) ||
  (decide (8192 ≤ c.toNat) && decide (c.toNat ≤ 8202)) ||
  decide (c.toNat = 8232) || decide (c.toNat = 8233) ||
  decide (c.toNat = 8239) || decide (c.toNat = 8287) ||
  decide (c.toNat = 12288) || decide (c.toNat = 65279)

def trimList (l : List Char) : List Char :=
  ((l.dropWhile isJsWs).reverse.dropWhile isJsWs).reverse

/-- JS `s.trim()`. -/
def jsTrim (s : String) : String := ⟨trimList s.data⟩

/-- JS `toLowerCase`, ASCII fragment. -/
def charToLower (c : Char) : Char :=
  if 65 ≤ c.toNat ∧ c.toNat ≤ 90 then Char.ofNat (c.toNat + 32) else c

def jsToLower (s : String) : String := ⟨s.data.map charToLower⟩

/-- JS `hay.includes(needle)`: substring containment. -/
def jsIncludes (hay needle : List Char) : Bool :=
  match hay with
  | [] => needle.isEmpty
  | _ :: t => needle.isPrefixOf hay || jsIncludes t needle

lemma jsIncludes_iff (hay needle : List Char) :
    jsIncludes hay needle = true ↔ needle <:+: hay := by
  induction hay with
  | nil =>
      simp only [jsIncludes, List.isEmpty_iff, List.infix_nil]
  | cons c t ih =>
      simp only [jsIncludes, Bool.or_eq_true, List.isPrefixOf_iff_prefix, ih,
        List.infix_cons_iff]

lemma char_toNat_ofNat (n : Nat) (h : n.isValidChar) :
    (Char.ofNat n).toNat = n := by
  unfold Char.ofNat
  rw [dif_pos h]
  rfl

lemma isJsWs_charToLower (c : Char) : isJsWs (charToLower c) = isJsWs c := by
  unfold charToLower
  split
  · rename_i h
    have hv : (Char.ofNat (c.toNat + 32)).toNat = c.toNat + 32 :=
      char_toNat_ofNat _ (Or.inl (by omega))
    have h2 : isJsWs (Char.ofNat (c.toNat + 32)) = false := by
      unfold isJsWs
      rw [hv]
      simp only [Bool.or_eq_false_iff, Bool.and_eq_false_iff,
        decide_eq_false_iff_not]
      omega
    have h1 : isJsWs c = false := by
      unfold isJsWs
      simp only [Bool.or_eq_false_iff, Bool.and_eq_false_iff,
        decide_eq_false_iff_not]
      omega
    rw [h1, h2]
  · rfl

lemma trimList_map_lower (l : List Char) :
    trimList (l.map charToLower) = (trimList l).map charToLower := by
  unfold trimList
  have hcomp : (isJsWs ∘ charToLower) = isJsWs := by
    funext c; exact isJsWs_charToLower c
  rw [List.dropWhile_map, hcomp, ← List.map_reverse, List.dropWhile_map, hcomp,
    ← List.map_reverse]

lemma jsTrim_jsToLower (s : String) :
    jsTrim (jsToLower s) = jsToLower (jsTrim s) := by
  unfold jsTrim jsToLower
  exact congrArg String.mk (trimList_map_lower s.data)

/-! ## `encodeURIComponent` and `decodeURIComponent`

The script URL-encodes names into `data-name` attributes and navigation
URLs (lines 35, 40, 129) and decodes them back on click (line 39).
`encodeURIComponent` leaves the unreserved characters
`A-Z a-z 0-9 - _ . ! ~ * ' ( )` as they are and percent-encodes each
UTF-8 byte of every other character; `decodeURIComponent` reverses
this, rejecting malformed or overlong sequences and surrogate or
out-of-range code points with a `URIError` (modelled as `none`). -/

def utf8Bytes (c : Char) : List Nat :=
  if c.toNat < 128 then [c.toNat]
  else if c.toNat < 2048 then [192 + c.toNat / 64, 128 + c.toNat % 64]
  else if c.toNat < 65536 then
    [224 + c.toNat / 4096, 128 + c.toNat / 64 % 64, 128 + c.toNat % 64]
  else
    [240 + c.toNat / 262144, 128 + c.toNat / 4096 % 64,
      128 + c.toNat / 64 % 64, 128 + c.toNat % 64]

/-- Upper-case hex digit, as produced by `encodeURIComponent`. -/
def hexDigitChar (n : Nat) : Char :=
  if n < 10 then Char.ofNat (48 + n) else Char.ofNat (55 + n)

/-- One percent-escape `%XY`. -/
def pctByte (b : Nat) : List Char :=
  ['%', hexDigitChar (b / 16), hexDigitChar (b % 16)]

/-- The unreserved set of `encodeURIComponent`:
`A-Z a-z 0-9 - _ . ! ~ * ' ( )`. -/
def isUnreservedChar (c : Char) : Bool :=
  (decide (65 ≤ c.toNat) && decide (c.toNat ≤ 90)) ||
  (decide (97 ≤ c.toNat) && decide (c.toNat ≤ 122)) ||
  (decide (48 ≤ c.toNat) && decide (c.toNat ≤ 57)) ||
  decide (c.toNat = 45) || decide (c.toNat = 95) || decide (c.toNat = 46) ||
  decide (c.toNat = 33) || decide (c.toNat = 126) || decide (c.toNat = 42) ||
  decide (c.toNat = 39) || decide (c.toNat = 40) || decide (c.toNat = 41)

def encChar (c : Char) : List Char :=
  if isUnreservedChar c then [c] else (utf8Bytes c).flatMap pctByte

def encodeURIComponent (s : String) : String := ⟨s.data.flatMap encChar⟩

/-- Hex digit value; `decodeURIComponent` accepts both cases. -/
def hexVal (c : Char) : Option Nat :=
  if 48 ≤ c.toNat ∧ c.toNat ≤ 57 then some (c.toNat - 48)
  else if 65 ≤ c.toNat ∧ c.toNat ≤ 70 then some (c.toNat - 55)
  else if 97 ≤ c.toNat ∧ c.toNat ≤ 102 then some (c.toNat - 87)
  else none

/-- Read one `%XY` escape. -/
def readPctByte : List Char → Option (Nat × List Char)
  | p :: h1 :: h2 :: rest =>
    if p.toNat = 37 then
      match hexVal h1, hexVal h2 with
      | some a, some b => some (16 * a + b, rest)
      | _, _ => none
    else none
  | _ => none

/-- Read one escaped UTF-8 continuation byte (`0x80`-`0xBF`). -/
def readContByte (l : List Char) : Option (Nat × List Char) :=
  match readPctByte l with
  | some (b, rest) => if 128 ≤ b ∧ b < 192 then some (b, rest) else none
  | none => none

/-- Decode one character's worth of input: a literal character passes
through; a `%` escape run is decoded as one UTF-8 sequence, rejecting
truncated input, bad lead or continuation bytes, overlong encodings,
surrogates and values above `0x10FFFF`. -/
def decodeOne : List Char → Option (Nat × List Char)
  | [] => none
  | c :: cs =>
    if c.toNat = 37 then
      match readPctByte (c :: cs) with
      | none => none
      | some (b0, r0) =>
        if b0 < 128 then some (b0, r0)
        else if b0 < 194 then none
        else if b0 < 224 then
          match readContByte r0 with
          | some (b1, r1) => some ((b0 - 192) * 64 + (b1 - 128), r1)
          | none => none
        else if b0 < 240 then
          match readContByte r0 with
          | some (b1, r1) =>
            match readContByte r1 with
            | some (b2, r2) =>
              if 2048 ≤ (b0 - 224) * 4096 + (b1 - 128) * 64 + (b2 - 128) ∧
                  ((b0 - 224) * 4096 + (b1 - 128) * 64 + (b2 - 128) < 55296 ∨
                    57344 ≤ (b0 - 224) * 4096 + (b1 - 128) * 64 + (b2 - 128)) then
                some ((b0 - 224) * 4096 + (b1 - 128) * 64 + (b2 - 128), r2)
              else none
            | none => none
          | none => none
        else if b0 < 245 then
          match readContByte r0 with
          | some (b1, r1) =>
            match readContByte r1 with
            | some (b2, r2) =>
              match readContByte r2 with
              | some (b3, r3) =>
                if 65536 ≤ (b0 - 240) * 262144 + (b1 - 128) * 4096 +
                      (b2 - 128) * 64 + (b3 - 128) ∧
                    (b0 - 240) * 262144 + (b1 - 128) * 4096 +
                      (b2 - 128) * 64 + (b3 - 128) < 1114112 then
                  some ((b0 - 240) * 262144 + (b1 - 128) * 4096 +
                    (b2 - 128) * 64 + (b3 - 128), r3)
                else none
              | none => none
            | none => none
          | none => none
        else none
    else some (c.toNat, cs)

lemma readPctByte_length (l r : List Char) (b : Nat)
    (h : readPctByte l = some (b, r)) : r.length + 3 = l.length := by
  unfold readPctByte at h
  repeat split at h
  all_goals simp_all

lemma readContByte_length (l r : List Char) (b : Nat)
    (h : readContByte l = some (b, r)) : r.length + 3 = l.length := by
  unfold readContByte at h
  split at h
  · rename_i b' rest hp
    split at h
    · simp only [Option.some.injEq, Prod.mk.injEq] at h
      obtain ⟨-, rfl⟩ := h
      exact readPctByte_length _ _ _ hp
    · exact Option.noConfusion h
  · exact Option.noConfusion h

lemma decodeOne_length (l r : List Char) (v : Nat)
    (h : decodeOne l = some (v, r)) : r.length < l.length := by
  cases l with
  | nil => exact Option.noConfusion h
  | cons c cs =>
    simp only [decodeOne] at h
    split at h
    · -- escape path
      split at h
      · exact Option.noConfusion h
      · rename_i b0 r0 hp
        have h0 := readPctByte_length _ _ _ hp
        split at h
        · -- one-byte sequence
          simp only [Option.some.injEq, Prod.mk.injEq] at h
          obtain ⟨-, rfl⟩ := h
          omega
        · split at h
          · exact Option.noConfusion h
          · split at h
            · -- two-byte sequence
              split at h
              · rename_i b1 r1 hc1
                have hl1 := readContByte_length _ _ _ hc1
                simp only [Option.some.injEq, Prod.mk.injEq] at h
                obtain ⟨-, rfl⟩ := h
                omega
              · exact Option.noConfusion h
            · split at h
              · -- three-byte sequence
                split at h
                · rename_i b1 r1 hc1
                  have hl1 := readContByte_length _ _ _ hc1
                  split at h
                  · rename_i b2 r2 hc2
                    have hl2 := readContByte_length _ _ _ hc2
                    split at h
                    · simp only [Option.some.injEq, Prod.mk.injEq] at h
                      obtain ⟨-, rfl⟩ := h
                      omega
                    · exact Option.noConfusion h
                  · exact Option.noConfusion h
                · exact Option.noConfusion h
              · split at h
                · -- four-byte sequence
                  split at h
                  · rename_i b1 r1 hc1
                    have hl1 := readContByte_length _ _ _ hc1
                    split at h
                    · rename_i b2 r2 hc2
                      have hl2 := readContByte_length _ _ _ hc2
                      split at h
                      · rename_i b3 r3 hc3
                        have hl3 := readContByte_length _ _ _ hc3
                        split at h
                        · simp only [Option.some.injEq, Prod.mk.injEq] at h
                          obtain ⟨-, rfl⟩ := h
                          omega
                        · exact Option.noConfusion h
                      · exact Option.noConfusion h
                    · exact Option.noConfusion h
                  · exact Option.noConfusion h
                · exact Option.noConfusion h
    · -- literal character passes through
      simp only [Option.some.injEq, Prod.mk.injEq] at h
      obtain ⟨-, rfl⟩ := h
      simp only [List.length_cons]
      omega

/-- Decode a whole percent-encoded character list. -/
def decodeAux (l : List Char) : Option (List Char) :=
  match l with
  | [] => some []
  | c :: cs =>
    match hd : decodeOne (c :: cs) with
    | none => none
    | some (v, rest) =>
      match decodeAux rest with
      | some out => some (Char.ofNat v :: out)
      | none => none
termination_by l.length
decreasing_by exact decodeOne_length _ _ _ hd

/-- JS `decodeURIComponent`; `none` models a thrown `URIError`. -/
def decodeURIComponent (s : String) : Option String :=
  (decodeAux s.data).map (fun l => ⟨l⟩)

lemma decodeAux_nil : decodeAux [] = some [] := by
  rw [decodeAux]

lemma decodeAux_cons (c : Char) (cs : List Char) :
    decodeAux (c :: cs) =
      match decodeOne (c :: cs) with
      | none => none
      | some (v, rest) =>
        match decodeAux rest with
        | some out => some (Char.ofNat v :: out)
        | none => none := by
  rw [decodeAux]
  split
  · rename_i hd
    rw [hd]
  · rename_i v rest hd
    rw [hd]

lemma hexVal_hexDigitChar (n : Nat) (h : n < 16) :
    hexVal (hexDigitChar n) = some n := by
  interval_cases n <;> rfl

lemma readPctByte_hex (b : Nat) (hb : b < 256) (x : List Char) :
    readPctByte ('%' :: hexDigitChar (b / 16) :: hexDigitChar (b % 16) :: x) =
      some (b, x) := by
  simp only [readPctByte]
  rw [if_pos (by rfl : ('%' : Char).toNat = 37),
    hexVal_hexDigitChar (b / 16) (by omega),
    hexVal_hexDigitChar (b % 16) (by omega)]
  show some (16 * (b / 16) + b % 16, x) = some (b, x)
  have hb' : 16 * (b / 16) + b % 16 = b := by omega
  rw [hb']

lemma readContByte_hex (b : Nat) (h1 : 128 ≤ b) (h2 : b < 192) (x : List Char) :
    readContByte ('%' :: hexDigitChar (b / 16) :: hexDigitChar (b % 16) :: x) =
      some (b, x) := by
  unfold readContByte
  rw [readPctByte_hex b (by omega) x]
  show (if 128 ≤ b ∧ b < 192 then some (b, x) else none) = some (b, x)
  rw [if_pos ⟨h1, h2⟩]

lemma isUnreservedChar_ne_pct (c : Char) (h : isUnreservedChar c = true) :
    ¬ c.toNat = 37 := by
  unfold isUnreservedChar at h
  simp only [Bool.or_eq_true, Bool.and_eq_true, decide_eq_true_eq] at h
  omega

lemma decodeOne_pct (b : Nat) (hb : b < 256) (x : List Char) :
    decodeOne ('%' :: hexDigitChar (b / 16) :: hexDigitChar (b % 16) :: x) =
      (if b < 128 then some (b, x)
       else if b < 194 then none
       else if b < 224 then
         match readContByte x with
         | some (b1, r1) => some ((b - 192) * 64 + (b1 - 128), r1)
         | none => none
       else if b < 240 then
         match readContByte x with
         | some (b1, r1) =>
           match readContByte r1 with
           | some (b2, r2) =>
             if 2048 ≤ (b - 224) * 4096 + (b1 - 128) * 64 + (b2 - 128) ∧
                 ((b - 224) * 4096 + (b1 - 128) * 64 + (b2 - 128) < 55296 ∨
                   57344 ≤ (b - 224) * 4096 + (b1 - 128) * 64 + (b2 - 128)) then
               some ((b - 224) * 4096 + (b1 - 128) * 64 + (b2 - 128), r2)
             else none
           | none => none
         | none => none
       else if b < 245 then
         match readContByte x with
         | some (b1, r1) =>
           match readContByte r1 with
           | some (b2, r2) =>
             match readContByte r2 with
             | some (b3, r3) =>
               if 65536 ≤ (b - 240) * 262144 + (b1 - 128) * 4096 +
                     (b2 - 128) * 64 + (b3 - 128) ∧
                   (b - 240) * 262144 + (b1 - 128) * 4096 +
                     (b2 - 128) * 64 + (b3 - 128) < 1114112 then
                 some ((b - 240) * 262144 + (b1 - 128) * 4096 +
                   (b2 - 128) * 64 + (b3 - 128), r3)
               else none
             | none => none
           | none => none
         | none => none
       else none) := by
  simp only [decodeOne]
  rw [if_pos (by rfl : ('%' : Char).toNat = 37), readPctByte_hex b hb x]

lemma decodeOne_encChar (c : Char) (r : List Char) :
    decodeOne (encChar c ++ r) = some (c.toNat, r) := by
  have hvalid : c.toNat < 55296 ∨ (57343 < c.toNat ∧ c.toNat < 1114112) := c.valid
  by_cases hu : isUnreservedChar c = true
  · simp only [encChar, if_pos hu, List.cons_append, List.nil_append]
    simp only [decodeOne]
    rw [if_neg (isUnreservedChar_ne_pct c hu)]
  · simp only [encChar, if_neg hu]
    by_cases h1 : c.toNat < 128
    · simp only [utf8Bytes, if_pos h1, List.flatMap_cons, List.flatMap_nil,
        List.append_nil, pctByte, List.cons_append, List.nil_append]
      rw [decodeOne_pct c.toNat (by omega), if_pos h1]
    · by_cases h2 : c.toNat < 2048
      · simp only [utf8Bytes, if_neg h1, if_pos h2, List.flatMap_cons,
          List.flatMap_nil, List.append_nil, pctByte, List.cons_append,
          List.nil_append, List.append_assoc]
        rw [decodeOne_pct (192 + c.toNat / 64) (by omega)]
        rw [if_neg (by omega), if_neg (by omega), if_pos (by omega)]
        rw [readContByte_hex (128 + c.toNat % 64) (by omega) (by omega)]
        show some ((192 + c.toNat / 64 - 192) * 64 + (128 + c.toNat % 64 - 128), r) =
          some (c.toNat, r)
        have hrec : (192 + c.toNat / 64 - 192) * 64 + (128 + c.toNat % 64 - 128) =
            c.toNat := by omega
        rw [hrec]
      · by_cases h3 : c.toNat < 65536
        · simp only [utf8Bytes, if_neg h1, if_neg h2, if_pos h3,
            List.flatMap_cons, List.flatMap_nil, List.append_nil, pctByte,
            List.cons_append, List.nil_append, List.append_assoc]
          rw [decodeOne_pct (224 + c.toNat / 4096) (by omega)]
          rw [if_neg (by omega), if_neg (by omega), if_neg (by omega),
            if_pos (by omega)]
          simp only [readContByte_hex (128 + c.toNat / 64 % 64) (by omega) (by omega),
            readContByte_hex (128 + c.toNat % 64) (by omega) (by omega)]
          rw [if_pos (by omega)]
          have hrec : (224 + c.toNat / 4096 - 224) * 4096 +
              (128 + c.toNat / 64 % 64 - 128) * 64 + (128 + c.toNat % 64 - 128) =
              c.toNat := by omega
          rw [hrec]
        · simp only [utf8Bytes, if_neg h1, if_neg h2, if_neg h3,
            List.flatMap_cons, List.flatMap_nil, List.append_nil, pctByte,
            List.cons_append, List.nil_append, List.append_assoc]
          rw [decodeOne_pct (240 + c.toNat / 262144) (by omega)]
          rw [if_neg (by omega), if_neg (by omega), if_neg (by omega),
            if_neg (by omega), if_pos (by omega)]
          simp only [readContByte_hex (128 + c.toNat / 4096 % 64) (by omega) (by omega),
            readContByte_hex (128 + c.toNat / 64 % 64) (by omega) (by omega),
            readContByte_hex (128 + c.toNat % 64) (by omega) (by omega)]
          rw [if_pos (by omega)]
          have hrec : (240 + c.toNat / 262144 - 240) * 262144 +
              (128 + c.toNat / 4096 % 64 - 128) * 4096 +
              (128 + c.toNat / 64 % 64 - 128) * 64 + (128 + c.toNat % 64 - 128) =
              c.toNat := by omega
          rw [hrec]

lemma encChar_ne_nil (c : Char) : encChar c ≠ [] := by
  unfold encChar
  split
  · exact List.cons_ne_nil _ _
  · unfold utf8Bytes
    split
    · simp [pctByte]
    · split
      · simp [pctByte]
      · split
        · simp [pctByte]
        · simp [pctByte]

lemma decodeAux_encChar_append (c : Char) (r : List Char) :
    decodeAux (encChar c ++ r) =
      match decodeAux r with
      | some out => some (c :: out)
      | none => none := by
  cases hsplit : encChar c ++ r with
  | nil => exact absurd (List.append_eq_nil.mp hsplit).1 (encChar_ne_nil c)
  | cons d ds =>
      rw [decodeAux_cons, ← hsplit, decodeOne_encChar]
      simp only [Char.ofNat_toNat]

lemma decodeAux_flatMap_encChar (l : List Char) :
    decodeAux (l.flatMap encChar) = some l := by
  induction l with
  | nil => rw [List.flatMap_nil]; exact decodeAux_nil
  | cons c cs ih =>
      rw [List.flatMap_cons, decodeAux_encChar_append, ih]

/-- `decodeURIComponent` undoes `encodeURIComponent` (the script relies
on this on line 39 when reading back the `data-name` attribute written
on line 35). -/
lemma decodeURIComponent_encodeURIComponent (s : String) :
    decodeURIComponent (encodeURIComponent s) = some s := by
  unfold decodeURIComponent encodeURIComponent
  rw [show (String.mk (s.data.flatMap encChar)).data = s.data.flatMap encChar
    from rfl]
  rw [decodeAux_flatMap_encChar]
  rfl

/-! ## Rendering search results (`renderSearchResults`, lines 26-45)

The `#search-results` box is modelled by its inline `display` style,
its contents (one row per match, carrying the URL-encoded name in
`data-name` and the name as its text) and its `aria-hidden` attribute.
-/

structure ResultRow where
  dataName : String    -- `data-name="${encodeURIComponent(name)}"` (line 35)
  label : String       -- the row's text: the name itself (line 35)
deriving DecidableEq

structure ResultsBox where
  display : String          -- `box.style.display`
  rows : List ResultRow     -- `box.innerHTML`
  ariaHidden : String       -- the `aria-hidden` attribute
deriving DecidableEq

/-- Lines 26-45: a null or empty match list hides and empties the box
and marks it `aria-hidden`; a non-empty one fills it with one row per
name, shows it and clears `aria-hidden`.  The result depends only on
the match list, every field being overwritten. -/
def renderSearchResults (matchList : Option (List String)) : ResultsBox :=
  match matchList with
  | none => ⟨"none", [], "true"⟩
  | some ms =>
    if ms.length = 0 then ⟨"none", [], "true"⟩
    else ⟨"block", ms.map (fun name => ⟨encodeURIComponent name, name⟩), "false"⟩

/-- Detail-page URL for a name (lines 40 and 129). -/
def detailUrl (name : String) : String :=
  "pokemon.html?name=" ++ encodeURIComponent name

/-- The per-row click handler (lines 38-41): decode the `data-name`
attribute and navigate to the detail URL; `none` models the `URIError`
`decodeURIComponent` would throw on a malformed attribute. -/
def resultClick (row : ResultRow) : Option String :=
  (decodeURIComponent row.dataName).map (fun name => detailUrl name)

/-! ## The debounced evaluation body (lines 55-65) -/

structure SearchFired where
  box : ResultsBox
  didLoad : Bool    -- whether `loadSearchPokedex()` was awaited (line 61)

/-- Line 63: keep the names whose lower-cased form contains the query,
in order, and cap at 15 (`.filter(...).slice(0, 15)`). -/
def computeMatches (names : List String) (raw : String) : List String :=
  (names.filter (fun name => jsIncludes (jsToLower name).data raw.data)).take 15

/-- The body of the debounce callback (lines 55-65) once it fires, as a
function of the input text at fire time and of the loaded name index:
`raw = qEl.value.trim().toLowerCase()`; an empty `raw` clears and hides
the box without loading the index; otherwise the index is awaited and
the match list rendered. -/
def searchEvalFire (inputValue : String) (pokedex : Json) : SearchFired :=
  if jsToLower (jsTrim inputValue) = "" then ⟨renderSearchResults none, false⟩
  else
    ⟨renderSearchResults (some (computeMatches
        (jsObjectKeys (if truthy pokedex then pokedex else Json.obj []))
        (jsToLower (jsTrim inputValue)))), true⟩

/-- The Enter-key handler (lines 122-132): click the first rendered
result row if one exists; otherwise navigate using the raw trimmed
input if non-empty; otherwise do nothing. -/
inductive NavOutcome where
  | nav (url : String)
  | noNav
  | uriError
deriving DecidableEq

def enterKeydown (rows : List ResultRow) (inputValue : String) : NavOutcome :=
  match rows with
  | first :: _ =>
    match resultClick first with
    | some url => .nav url
    | none => .uriError
  | [] =>
    if jsTrim inputValue = "" then .noNav
    else .nav ("pokemon.html?name=" ++ encodeURIComponent (jsTrim inputValue))

lemma labels_render (ms : List String) :
    (renderSearchResults (some ms)).rows.map (fun r => r.label) =
      if ms.length = 0 then [] else ms := by
  show ((if ms.length = 0 then (⟨"none", [], "true"⟩ : ResultsBox)
      else ⟨"block", ms.map (fun name => ⟨encodeURIComponent name, name⟩),
        "false"⟩).rows.map (fun r => r.label)) =
    if ms.length = 0 then [] else ms
  by_cases h0 : ms.length = 0
  · rw [if_pos h0, if_pos h0]; rfl
  · rw [if_neg h0, if_neg h0]
    simp only [List.map_map]
    show ms.map (fun name =>
      (ResultRow.mk (encodeURIComponent name) name).label) = ms
    exact List.map_id ms

lemma jsToLower_eq_empty_iff (q : String) : jsToLower q = "" ↔ q = "" := by
  constructor
  · intro h
    have hdata : q.data.map charToLower = [] := congrArg String.data h
    have hq : q.data = [] := List.map_eq_nil_iff.mp hdata
    cases q with
    | mk data => rw [show data = [] from hq]
  · intro h
    rw [h]
    rfl

lemma computeMatches_all (names : List String) (raw : String) :
    (computeMatches names raw).all
      (fun name => jsIncludes (jsToLower name).data raw.data) = true := by
  rw [List.all_eq_true]
  intro x hx
  exact (List.mem_filter.mp (List.mem_of_mem_take hx)).2

lemma computeMatches_len (names : List String) (raw : String) :
    (computeMatches names raw).length ≤ 15 := by
  unfold computeMatches
  rw [List.length_take]
  exact min_le_left _ _

lemma computeMatches_sublist (names : List String) (raw : String) :
    (computeMatches names raw).Sublist names :=
  (List.take_sublist _ _).trans (List.filter_sublist _)

/-- Claim C1: for a non-empty trimmed query, the rendered MatchList
consists of names whose lower-cased form contains the lower-cased query
as a substring (the filter of line 63), has at most 15 entries
(`slice(0, 15)`), and is a sublist of the name index's keys in their
original order (no reordering); and the whole evaluation is
case-insensitive in the query: two queries with the same lower-cased
form produce identical results. -/
theorem searchPokemon_matchlist (q q2 : String) (pokedex : Json)
    (hq : jsTrim q = q) (hne : q ≠ "")
    (hcase : jsToLower q2 = jsToLower q) :
    ((searchEvalFire q pokedex).box.rows.map (fun r => r.label)).all
        (fun name => jsIncludes (jsToLower name).data (jsToLower q).data) = true ∧
    ((searchEvalFire q pokedex).box.rows.map (fun r => r.label)).length ≤ 15 ∧
    ((searchEvalFire q pokedex).box.rows.map (fun r => r.label)).Sublist
      (jsObjectKeys (if truthy pokedex then pokedex else Json.obj [])) ∧
    searchEvalFire q2 pokedex = searchEvalFire q pokedex := by
  have hlow : ¬ jsToLower q = "" := fun hcon =>
    hne ((jsToLower_eq_empty_iff q).mp hcon)
  have hbox : searchEvalFire q pokedex =
      ⟨renderSearchResults (some (computeMatches
        (jsObjectKeys (if truthy pokedex then pokedex else Json.obj []))
        (jsToLower q))), true⟩ := by
    unfold searchEvalFire
    rw [hq, if_neg hlow]
  have hsame : searchEvalFire q2 pokedex = searchEvalFire q pokedex := by
    have hraw : jsToLower (jsTrim q2) = jsToLower (jsTrim q) := by
      rw [← jsTrim_jsToLower, hcase, jsTrim_jsToLower]
    unfold searchEvalFire
    rw [hraw]
  have hlab : (searchEvalFire q pokedex).box.rows.map (fun r => r.label) =
      if (computeMatches
          (jsObjectKeys (if truthy pokedex then pokedex else Json.obj []))
          (jsToLower q)).length = 0 then []
      else computeMatches
        (jsObjectKeys (if truthy pokedex then pokedex else Json.obj []))
        (jsToLower q) := by
    rw [hbox]
    exact labels_render _
  refine ⟨?_, ?_, ?_, hsame⟩ <;> rw [hlab] <;>
    by_cases h0 : (computeMatches
        (jsObjectKeys (if truthy pokedex then pokedex else Json.obj []))
        (jsToLower q)).length = 0
  · rw [if_pos h0]; rfl
  · rw [if_neg h0]; exact computeMatches_all _ _
  · rw [if_pos h0]; exact Nat.zero_le 15
  · rw [if_neg h0]; exact computeMatches_len _ _
  · rw [if_pos h0]; exact List.nil_sublist _
  · rw [if_neg h0]; exact computeMatches_sublist _ _

def examplePokedex : Json :=
  Json.obj [("Charmander", Json.null), ("Charizard", Json.null),
    ("Squirtle", Json.null)]

theorem searchPokemon_matchlist_witness :
    (jsTrim "char" = "char" ∧ ("char" : String) ≠ "" ∧
      jsToLower "CHAR" = jsToLower "char") ∧
    (((searchEvalFire "char" examplePokedex).box.rows.map
          (fun r => r.label)).all
        (fun name =>
          jsIncludes (jsToLower name).data (jsToLower "char").data) = true ∧
      ((searchEvalFire "char" examplePokedex).box.rows.map
          (fun r => r.label)).length ≤ 15 ∧
      ((searchEvalFire "char" examplePokedex).box.rows.map
          (fun r => r.label)).Sublist
        (jsObjectKeys
          (if truthy examplePokedex then examplePokedex else Json.obj [])) ∧
      searchEvalFire "CHAR" examplePokedex =
        searchEvalFire "char" examplePokedex) ∧
    (searchEvalFire "char" examplePokedex).box.rows.map (fun r => r.label) =
      ["Charmander", "Charizard"] :=
  ⟨⟨rfl, by decide, rfl⟩,
    searchPokemon_matchlist "char" "CHAR" examplePokedex rfl (by decide) rfl,
    rfl⟩

/-- Claim C8: when the debounce callback fires on an empty or
whitespace-only input, the results box is cleared, hidden and marked
`aria-hidden`, and no name-index load happens. -/
theorem searchEval_empty_query (inputValue : String) (pokedex : Json)
    (h : ∀ ch ∈ inputValue.data, isJsWs ch = true) :
    searchEvalFire inputValue pokedex = ⟨⟨"none", [], "true"⟩, false⟩ := by
  have htrim : jsTrim inputValue = "" := by
    unfold jsTrim trimList
    rw [List.dropWhile_eq_nil_iff.mpr h]
    rfl
  unfold searchEvalFire
  rw [htrim]
  rfl

theorem searchEval_empty_query_witness :
    (∀ ch ∈ ("  " : String).data, isJsWs ch = true) ∧
    searchEvalFire "  " Json.null = ⟨⟨"none", [], "true"⟩, false⟩ :=
  ⟨by decide, searchEval_empty_query "  " Json.null (by decide)⟩

/-- Claim C5: pressing Enter with at least one rendered result behaves
as a click on the first result, navigating to its detail URL (encode,
store in `data-name`, decode, re-encode round-trips to the name's
URL); with no rendered results and non-empty trimmed input it
navigates to the URL built from the raw trimmed text; with no results
and empty trimmed input nothing happens. -/
theorem enterKey_navigation (first : String) (restNames : List String)
    (v w u : String) (hw : jsTrim w ≠ "") (hu : jsTrim u = "") :
    enterKeydown (renderSearchResults (some (first :: restNames))).rows v =
      NavOutcome.nav (detailUrl first) ∧
    enterKeydown [] w = NavOutcome.nav (detailUrl (jsTrim w)) ∧
    enterKeydown [] u = NavOutcome.noNav := by
  refine ⟨?_, ?_, ?_⟩
  · have hrows : (renderSearchResults (some (first :: restNames))).rows =
        ResultRow.mk (encodeURIComponent first) first ::
          restNames.map (fun name => ⟨encodeURIComponent name, name⟩) := by
      show (if (first :: restNames).length = 0
          then (⟨"none", [], "true"⟩ : ResultsBox)
          else ⟨"block", (first :: restNames).map
            (fun name => ⟨encodeURIComponent name, name⟩), "false"⟩).rows = _
      rw [if_neg (by simp)]
      rfl
    rw [hrows]
    show (match resultClick ⟨encodeURIComponent first, first⟩ with
      | some url => NavOutcome.nav url
      | none => NavOutcome.uriError) = NavOutcome.nav (detailUrl first)
    unfold resultClick
    rw [show (ResultRow.mk (encodeURIComponent first) first).dataName =
      encodeURIComponent first from rfl]
    rw [decodeURIComponent_encodeURIComponent]
    rfl
  · unfold enterKeydown
    rw [if_neg hw]
    rfl
  · unfold enterKeydown
    rw [if_pos hu]

theorem enterKey_navigation_witness :
    (jsTrim " Mew " ≠ "" ∧ jsTrim "   " = "") ∧
    (enterKeydown
        (renderSearchResults (some ["Pikachu"])).rows "pika" =
      NavOutcome.nav (detailUrl "Pikachu") ∧
    enterKeydown [] " Mew " = NavOutcome.nav (detailUrl (jsTrim " Mew ")) ∧
    enterKeydown [] "   " = NavOutcome.noNav) :=
  ⟨⟨by decide, rfl⟩,
    enterKey_navigation "Pikachu" [] "pika" " Mew " "   " (by decide) rfl⟩

/-! ## The results-panel state machine (claim C9)

Events that touch the `#search-results` box: a render (the tail of
every fired search evaluation, lines 26-45) and a click outside both
the input and the box, whose handler (lines 135-142) sets only
`box.style.display = "none"` — it touches neither the contents nor the
`aria-hidden` attribute. -/

inductive PanelEvent where
  | render (matchList : Option (List String))
  | clickOutside

/-- The box as the fallback header creates it (line 158):
`aria-hidden="true"`, empty, hidden by the stylesheet. -/
def panelInit : ResultsBox := ⟨"none", [], "true"⟩

def panelStep (b : ResultsBox) : PanelEvent → ResultsBox
  | .render m => renderSearchResults m
  | .clickOutside => { b with display := "none" }   -- line 140

def panelRun (events : List PanelEvent) : ResultsBox :=
  events.foldl panelStep panelInit

/-- The agreement claim C9 asserts for every reachable state: visible
with `aria-hidden="false"`, or hidden with `aria-hidden="true"`. -/
def panelAgrees (b : ResultsBox) : Bool :=
  (b.display == "block" && b.ariaHidden == "false") ||
  (b.display == "none" && b.ariaHidden == "true")

/-- What actually holds in every reachable state: a visible box has
`aria-hidden="false"` and non-empty contents, and `aria-hidden="true"`
implies hidden and empty — but a hidden box may keep
`aria-hidden="false"` after a click-away close. -/
def panelInv (b : ResultsBox) : Bool :=
  (b.display == "none" || b.display == "block") &&
  (!(b.display == "block") || (b.ariaHidden == "false" && !b.rows.isEmpty)) &&
  (!(b.ariaHidden == "true") || (b.display == "none" && b.rows.isEmpty))

/-- Claim C9 fails on the code: after rendering a non-empty match list
and then clicking outside, the box is hidden (`display:none`, line 140)
but still has `aria-hidden="false"` — the click-away handler never
updates the attribute, so visibility and accessibility-hidden state
disagree in a reachable state. -/
theorem panel_aria_counterexample :
    panelAgrees (panelRun
      [PanelEvent.render (some ["Pikachu"]), PanelEvent.clickOutside]) = false ∧
    (panelRun [PanelEvent.render (some ["Pikachu"]),
      PanelEvent.clickOutside]).display = "none" ∧
    (panelRun [PanelEvent.render (some ["Pikachu"]),
      PanelEvent.clickOutside]).ariaHidden = "false" := by
  refine ⟨rfl, rfl, rfl⟩

/-- Claim C9 amended: rendering a non-empty match list yields the
visible state (displayed, `aria-hidden="false"`, non-empty); an empty
query, an empty match list, or a null render yields the hidden-and-
empty state with `aria-hidden="true"`; a click outside only sets
`display:none`, leaving contents and `aria-hidden` untouched.  In
every reachable state: display is `none` or `block`; a displayed box
has `aria-hidden="false"` and rows; `aria-hidden="true"` implies a
hidden, empty box.  The converse hidden-implies-`aria-hidden="true"`
does not hold after a click-away close. -/
theorem panel_invariant_amended :
    (∀ events : List PanelEvent, panelInv (panelRun events) = true) ∧
    (∀ b : ResultsBox,
      panelStep b PanelEvent.clickOutside = { b with display := "none" }) := by
  refine ⟨?_, fun b => rfl⟩
  intro events
  suffices h : ∀ b : ResultsBox, panelInv b = true →
      panelInv (events.foldl panelStep b) = true from h panelInit rfl
  induction events with
  | nil => exact fun b hb => hb
  | cons e es ih =>
      intro b hb
      rw [List.foldl_cons]
      apply ih
      cases e with
      | render m =>
          cases m with
          | none => rfl
          | some ms =>
              cases ms with
              | nil => rfl
              | cons x xs => rfl
      | clickOutside =>
          obtain ⟨d, rows, a⟩ := b
          have h3 : (!(a == "true") || (d == "none" && rows.isEmpty)) = true := by
            have hb' := hb
            unfold panelInv at hb'
            simp only [Bool.and_eq_true] at hb'
            exact hb'.2
          show panelInv ⟨"none", rows, a⟩ = true
          unfold panelInv
          simp only [show (("none" : String) == "none") = true from rfl,
            show (("none" : String) == "block") = false from rfl,
            Bool.not_false, Bool.true_or, Bool.true_and, Bool.and_self]
          cases ha : (a == "true") with
          | false => rfl
          | true =>
              rw [ha] at h3
              simp only [Bool.not_true, Bool.false_or, Bool.and_eq_true] at h3 ⊢
              exact h3.2
